import Mathlib

/-!
Verification of the chat request tokenizer (`ChatRequestParser` in
`src/vs/workbench/contrib/pinnedContext/common/pinnedContextContextKeys.ts`).

The parser scans a message left to right, dispatching on the leader characters
`!`, `#`, `/` to four rule matchers driven by these JavaScript regular
expressions:

  agentReg            = /^!([\w_\-]*)(?=(\s|$|\b))/i
  variableReg         = /^#([\w_\-]+)(:\d+)?(?=(\s|$|\b))/i
  slashReg            = /\/([\w_\-]+)(?=(\s|$|\b))/i          (not anchored)
  variableWithArgReg  = /\#([\w_\-]+):([\w_\-\.]+)(?=(\s|$|\b))/i  (not anchored)

Strings are modelled as `List Char` (JavaScript strings indexed by code unit;
all inputs of interest are ASCII).  The regular expressions are embedded as
explicit matchers implementing the JavaScript engine's semantics for these
particular patterns: greedy repetition with backtracking against the trailing
lookahead `(?=(\s|$|\b))`, and leftmost search for the two unanchored patterns.
-/

/-- JS whitespace: the character set matched by the regular expression `/\s/`
(also the set removed by `String.prototype.trim`). -/
def isJsSpace (c : Char) : Bool :=
  c = ' ' || c = '\t' || c = '\n' || c = '\r' || c = '\x0b' || c = '\x0c' ||
  c = ' ' || c = ' ' || (0x2000 ≤ c.toNat && c.toNat ≤ 0x200a) ||
  c = ' ' || c = ' ' || c = ' ' || c = ' ' || c = '　' ||
  c = '﻿'

/-- JS word character, the class `\w` = `[A-Za-z0-9_]`. -/
def isWordChar (c : Char) : Bool :=
  ('a' ≤ c && c ≤ 'z') || ('A' ≤ c && c ≤ 'Z') || ('0' ≤ c && c ≤ '9') || c = '_'

/-- Characters allowed in a matched name: the class `[\w_\-]`. -/
def isNameChar (c : Char) : Bool := isWordChar c || c = '-'

/-- Decimal digit, the class `\d`. -/
def isDigitChar (c : Char) : Bool := '0' ≤ c && c ≤ '9'

/-- Characters allowed in a dynamic-variable argument: the class `[\w_\-\.]`. -/
def isArgChar (c : Char) : Bool := isNameChar c || c = '.'

/-- The lookahead `(?=(\s|$|\b))` evaluated at a cut point: `prev` is the last
consumed character (the leader itself if the repetition consumed nothing) and
`next` the first remaining one.  `$` holds at the end of input; `\b` holds when
exactly one side of the position is a `\w` character. -/
def lookaheadOk (prev : Char) (next : Option Char) : Bool :=
  match next with
  | none => true
  | some c => isJsSpace c || (isWordChar prev != isWordChar c)

/-- Backtracking search for the cut of a greedy repetition followed by the
lookahead `(?=(\s|$|\b))`: try the cut length `k`, then `k-1`, ... down to
`minLen` (0 for `*`, 1 for `+`), returning the first length whose cut
satisfies the lookahead.  `rest` is the text right after the leader, so the
character before the cut at length `j+1` is `rest[j]` (and the leader itself
at length 0). -/
def backtrackCut (leader : Char) (rest : List Char) (minLen : Nat) : Nat → Option Nat
  | 0 => if minLen = 0 ∧ lookaheadOk leader rest.head? then some 0 else none
  | k+1 =>
    if minLen ≤ k + 1 ∧ lookaheadOk (rest.getD k leader) ((rest.drop (k+1)).head?) then
      some (k+1)
    else backtrackCut leader rest minLen k

/-- Embedding of `agentReg = /^!([\w_\-]*)(?=(\s|$|\b))/i` applied to `s`:
on success returns the captured name (group 1); the full match is
`'!' :: name`. -/
def agentRegMatch (s : List Char) : Option (List Char) :=
  match s with
  | [] => none
  | c :: rest =>
    if c = '!' then
      (backtrackCut '!' rest 0 (rest.takeWhile isNameChar).length).map
        (fun k => rest.take k)
    else none

/-- Inner search of `variableReg` after the leading `#`: name length `k`
descending (greedy with backtracking); for each the optional greedy group
`(:\d+)?` is tried first with its own digit backtracking, then absence, each
followed by the lookahead.  Returns (name, captured group 2 text, colon
included, or `[]` when absent). -/
def varNameSearch (rest : List Char) : Nat → Option (List Char × List Char)
  | 0 => none
  | k+1 =>
    let afterName := rest.drop (k+1)
    let groupCandidate :=
      if afterName.head? = some ':' then
        let t := afterName.tail
        (backtrackCut ':' t 1 (t.takeWhile isDigitChar).length).map
          (fun d => ':' :: t.take d)
      else none
    match groupCandidate with
    | some g => some (rest.take (k+1), g)
    | none =>
      if lookaheadOk (rest.getD k '#') afterName.head? then some (rest.take (k+1), [])
      else varNameSearch rest k

/-- Embedding of `variableReg = /^#([\w_\-]+)(:\d+)?(?=(\s|$|\b))/i` applied to
`s`: on success returns (name, group 2 or empty); the full match is
`'#' :: name ++ group`. -/
def variableRegMatch (s : List Char) : Option (List Char × List Char) :=
  match s with
  | [] => none
  | c :: rest =>
    if c = '#' then varNameSearch rest (rest.takeWhile isNameChar).length else none

/-- Inner search of `slashReg` at a position whose current character is `/`:
greedy name with backtracking against the lookahead. -/
def slashNameAt (rest : List Char) : Option (List Char) :=
  (backtrackCut '/' rest 1 (rest.takeWhile isNameChar).length).map
    (fun k => rest.take k)

/-- Embedding of the unanchored `slashReg = /\/([\w_\-]+)(?=(\s|$|\b))/i`
searched over `s` (JavaScript `String.match` without `g`: leftmost match).
Returns (match index, captured name); the full match is `'/' :: name`. -/
def slashRegFind : List Char → Option (Nat × List Char)
  | [] => none
  | c :: rest =>
    if c = '/' then
      match slashNameAt rest with
      | some name => some (0, name)
      | none => (slashRegFind rest).map (fun r => (r.1 + 1, r.2))
    else (slashRegFind rest).map (fun r => (r.1 + 1, r.2))

/-- Inner search of `variableWithArgReg` after a leading `#`: name length
descending; each requires a literal `:` next, then a greedy `[\w_\-\.]+`
argument backtracked against the lookahead. -/
def varArgNameSearch (rest : List Char) : Nat → Option (List Char × List Char)
  | 0 => none
  | k+1 =>
    let afterName := rest.drop (k+1)
    if afterName.head? = some ':' then
      let t := afterName.tail
      match backtrackCut ':' t 1 (t.takeWhile isArgChar).length with
      | some d => some (rest.take (k+1), t.take d)
      | none => varArgNameSearch rest k
    else varArgNameSearch rest k

/-- Embedding of the unanchored
`variableWithArgReg = /\#([\w_\-]+):([\w_\-\.]+)(?=(\s|$|\b))/i` searched over
`s` (leftmost match).  Returns (match index, name, argument); the full match is
`'#' :: name ++ ':' :: arg`. -/
def variableWithArgFind : List Char → Option (Nat × List Char × List Char)
  | [] => none
  | c :: rest =>
    if c = '#' then
      match varArgNameSearch rest (rest.takeWhile isNameChar).length with
      | some (n, a) => some (0, n, a)
      | none => (variableWithArgFind rest).map (fun r => (r.1 + 1, r.2.1, r.2.2))
    else (variableWithArgFind rest).map (fun r => (r.1 + 1, r.2.1, r.2.2))

/-- Modelled from the spec: the editor's `OffsetRange` class (outside the given
sources) is a pair `[start, endExclusive)` of zero-based character offsets. -/
structure OffsetRange where
  start : Nat
  endExclusive : Nat
  deriving Repr, DecidableEq

/-- Modelled from the spec: the editor's `Range` class (outside the given
sources) is a pair of 1-based (line, column) positions. -/
structure EditorRange where
  startLineNumber : Nat
  startColumn : Nat
  endLineNumber : Nat
  endColumn : Nat
  deriving Repr, DecidableEq

/-- Modelled from the spec: the editor's `Position` class (outside the given
sources), a 1-based (line, column) pair. -/
structure Position where
  lineNumber : Nat
  column : Nat
  deriving Repr, DecidableEq

/-- An agent sub-command, as consumed by the parser (`c.name`). -/
structure AgentSubCommand where
  name : List Char
  deriving Repr, DecidableEq

/-- A standalone slash command, as consumed by the parser (`c.command`). -/
structure SlashCmdInfo where
  command : List Char
  deriving Repr, DecidableEq

/-- Decidable equality for `Except`, needed to evaluate concrete parse
results. -/
instance {ε α : Type} [DecidableEq ε] [DecidableEq α] : DecidableEq (Except ε α) :=
  fun a b =>
    match a, b with
    | .error e, .error f =>
      if h : e = f then isTrue (by rw [h]) else
        isFalse (fun hh => h (Except.error.inj hh))
    | .ok x, .ok y =>
      if h : x = y then isTrue (by rw [h]) else
        isFalse (fun hh => h (Except.ok.inj hh))
    | .error _, .ok _ => isFalse (fun hh => Except.noConfusion hh)
    | .ok _, .error _ => isFalse (fun hh => Except.noConfusion hh)

/-- An agent object.  `provideSlashCommands` models the outcome of the
asynchronous `agent.provideSlashCommands(...)` call: either the enumerated
sub-command list or a thrown error. -/
structure ChatAgent where
  agentId : Nat
  provideSlashCommands : Except String (List AgentSubCommand)
  deriving Repr, DecidableEq

/-- A dynamic reference record: an editor range plus opaque payload data; the
parser reads `r.range.startLineNumber`, `r.range.startColumn` and `r.data`. -/
structure DynamicReference (δ : Type) where
  range : EditorRange
  data : δ
  deriving Repr, DecidableEq

/-- The segment variant type (`IParsedChatRequestPart` and its classes,
modelled from the spec's data model; the class definitions live outside the
given sources).  `δ` is the opaque payload type of dynamic references. -/
inductive ChatPart (δ : Type) where
  | text (range : OffsetRange) (editorRange : EditorRange) (content : List Char)
  | agentPart (range : OffsetRange) (editorRange : EditorRange) (agent : ChatAgent)
  | agentSubcommand (range : OffsetRange) (editorRange : EditorRange)
      (subCommand : AgentSubCommand)
  | slashCommand (range : OffsetRange) (editorRange : EditorRange)
      (command : SlashCmdInfo)
  | variablePart (range : OffsetRange) (editorRange : EditorRange)
      (name : List Char) (arg : List Char)
  | dynamicReference (range : OffsetRange) (editorRange : EditorRange)
      (name : List Char) (arg : List Char) (data : δ)
  deriving Repr, DecidableEq

/-- The offset range carried by a part. -/
def ChatPart.range {δ : Type} : ChatPart δ → OffsetRange
  | .text r _ _ => r
  | .agentPart r _ _ => r
  | .agentSubcommand r _ _ => r
  | .slashCommand r _ _ => r
  | .variablePart r _ _ _ => r
  | .dynamicReference r _ _ _ _ => r

/-- The editor range carried by a part. -/
def ChatPart.editorRange {δ : Type} : ChatPart δ → EditorRange
  | .text _ e _ => e
  | .agentPart _ e _ => e
  | .agentSubcommand _ e _ => e
  | .slashCommand _ e _ => e
  | .variablePart _ e _ _ => e
  | .dynamicReference _ e _ _ _ => e

/-- The `instanceof ChatRequestTextPart` test. -/
def ChatPart.isTextPart {δ : Type} : ChatPart δ → Bool
  | .text _ _ _ => true
  | _ => false

/-- The `instanceof ChatRequestAgentPart` test. -/
def ChatPart.isAgentPart {δ : Type} : ChatPart δ → Bool
  | .agentPart _ _ _ => true
  | _ => false

/-- The `instanceof ChatRequestSlashCommandPart` test. -/
def ChatPart.isSlashCommandPart {δ : Type} : ChatPart δ → Bool
  | .slashCommand _ _ _ => true
  | _ => false

/-- The `instanceof ChatRequestAgentSubcommandPart` test. -/
def ChatPart.isAgentSubcommandPart {δ : Type} : ChatPart δ → Bool
  | .agentSubcommand _ _ _ => true
  | _ => false

/-- The `instanceof ChatRequestDynamicReferencePart` test. -/
def ChatPart.isDynamicReferencePart {δ : Type} : ChatPart δ → Bool
  | .dynamicReference _ _ _ _ _ => true
  | _ => false

/-- A part that is a slash command or an agent sub-command. -/
def ChatPart.isSlashLike {δ : Type} (p : ChatPart δ) : Bool :=
  p.isSlashCommandPart || p.isAgentSubcommandPart

/-- The test `p instanceof ChatRequestTextPart && p.text.trim() !== ''`:
a text part whose content does not trim to the empty string. -/
def ChatPart.isNonblankText {δ : Type} : ChatPart δ → Bool
  | .text _ _ s => s.any (fun c => !(isJsSpace c))
  | _ => false

/-- The agent object carried by an agent part, if any (used for
`parts.find(p => p instanceof ChatRequestAgentPart)` followed by `.agent`). -/
def ChatPart.agentOf {δ : Type} : ChatPart δ → Option ChatAgent
  | .agentPart _ _ a => some a
  | _ => none

/-- The resolved command name carried by a slash-command or agent-subcommand
part. -/
def ChatPart.resolvedCommandName {δ : Type} : ChatPart δ → Option (List Char)
  | .slashCommand _ _ c => some c.command
  | .agentSubcommand _ _ s => some s.name
  | _ => none

/-- The external services consumed by the parser.  `getDynamicReferences`
takes the session id and a mutation epoch: epoch 0 is the list's value when
the parse starts, later epochs model concurrent mutation of the session's
reference list while the parse is running.  The source reads the list's
current value once, at the start, i.e. at epoch 0. -/
structure ChatServices (δ : Type) where
  getAgent : List Char → Option ChatAgent
  hasVariable : List Char → Bool
  getCommands : List SlashCmdInfo
  getDynamicReferences : Nat → Nat → List (DynamicReference δ)

/-- Modelled from the spec: leader character of agent mentions
(`chatAgentLeader` of `csChatParserTypes`, outside the given sources; the
spec's glossary and the anchored `agentReg` fix it as `!`). -/
def chatAgentLeader : Char := '!'

/-- Modelled from the spec: leader character of slash commands
(`chatSubcommandLeader` of `csChatParserTypes`, outside the given sources). -/
def chatSubcommandLeader : Char := '/'

/-- Modelled from the spec: leader character of variables and file references
(`chatFileVariableLeader` of `csChatParserTypes`, outside the given
sources). -/
def chatFileVariableLeader : Char := '#'

/-- End offset of the last accumulated part (`parts.at(-1)?.range.endExclusive
?? 0`). -/
def lastPartEnd {δ : Type} (parts : List (ChatPart δ)) : Nat :=
  match parts.getLast? with
  | none => 0
  | some p => p.range.endExclusive

/-- End line of the last accumulated part (default 1). -/
def lastPartEndLine {δ : Type} (parts : List (ChatPart δ)) : Nat :=
  match parts.getLast? with
  | none => 1
  | some p => p.editorRange.endLineNumber

/-- End column of the last accumulated part (default 1). -/
def lastPartEndCol {δ : Type} (parts : List (ChatPart δ)) : Nat :=
  match parts.getLast? with
  | none => 1
  | some p => p.editorRange.endColumn

/-- JavaScript `message.slice(a, b)` on the modelled string (empty when
`b ≤ a`). -/
def sliceChars (message : List Char) (a b : Nat) : List Char :=
  (message.drop a).take (b - a)

/-- Embedding of `ChatRequestParser.tryToParseVariable`.  The source also
receives the accumulated parts but never reads them, so that parameter is
omitted. -/
def tryToParseVariable {δ : Type} (svc : ChatServices δ) (message : List Char)
    (offset : Nat) (pos : Position) : Option (ChatPart δ) :=
  match variableRegMatch message with
  | none => none
  | some (name, arg) =>
    let fullLen := 1 + name.length + arg.length
    let varRange : OffsetRange := ⟨offset, offset + fullLen⟩
    let varEditorRange : EditorRange :=
      ⟨pos.lineNumber, pos.column, pos.lineNumber, pos.column + fullLen⟩
    if svc.hasVariable name then
      some (.variablePart varRange varEditorRange name arg)
    else none

/-- Embedding of `ChatRequestParser.tryToParseAgent`. -/
def tryToParseAgent {δ : Type} (svc : ChatServices δ)
    (message fullMessage : List Char) (offset : Nat) (pos : Position)
    (parts : List (ChatPart δ)) : Option (ChatPart δ) :=
  match agentRegMatch message with
  | none => none
  | some name =>
    let fullLen := 1 + name.length
    let varRange : OffsetRange := ⟨offset, offset + fullLen⟩
    let varEditorRange : EditorRange :=
      ⟨pos.lineNumber, pos.column, pos.lineNumber, pos.column + fullLen⟩
    match svc.getAgent name with
    | none => none
    | some agent =>
      if parts.any (fun p => p.isAgentPart) then none
      else if parts.any (fun p => p.isNonblankText || !p.isAgentPart) then none
      else
        let textSincePreviousPart := sliceChars fullMessage (lastPartEnd parts) offset
        if textSincePreviousPart.any (fun c => !(isJsSpace c)) then none
        else some (.agentPart varRange varEditorRange agent)

/-- Embedding of `ChatRequestParser.tryToParseSlashCommand`.  The source also
receives the session id but never reads it, so that parameter is omitted.  The
asynchronous `provideSlashCommands` call is the agent's `Except` field; a
thrown error is returned as `.error` (the source does not catch it). -/
def tryToParseSlashCommand {δ : Type} (svc : ChatServices δ)
    (remainingMessage fullMessage : List Char) (offset : Nat) (pos : Position)
    (parts : List (ChatPart δ)) : Except String (Option (ChatPart δ)) :=
  match slashRegFind remainingMessage with
  | none => .ok none
  | some (_, command) =>
    if parts.any (fun p => p.isSlashCommandPart) then .ok none
    else
      let fullLen := 1 + command.length
      let slashRange : OffsetRange := ⟨offset, offset + fullLen⟩
      let slashEditorRange : EditorRange :=
        ⟨pos.lineNumber, pos.column, pos.lineNumber, pos.column + fullLen⟩
      match parts.findSome? (fun p => p.agentOf) with
      | some usedAgent =>
        if parts.any (fun p => p.isNonblankText || (!p.isAgentPart && !p.isTextPart))
        then .ok none
        else
          let textSincePreviousPart := sliceChars fullMessage (lastPartEnd parts) offset
          if textSincePreviousPart.any (fun c => !(isJsSpace c)) then .ok none
          else
            match usedAgent.provideSlashCommands with
            | .error e => .error e
            | .ok subCommands =>
              match subCommands.find? (fun c => c.name = command) with
              | some subCommand =>
                .ok (some (.agentSubcommand slashRange slashEditorRange subCommand))
              | none => .ok none
      | none =>
        match svc.getCommands.find? (fun c => c.command = command) with
        | some slashCommand =>
          .ok (some (.slashCommand slashRange slashEditorRange slashCommand))
        | none => .ok none

/-- Embedding of `ChatRequestParser.tryToParseDynamicVariable` (declared async
in the source but it never suspends). -/
def tryToParseDynamicVariable {δ : Type} (message : List Char) (offset : Nat)
    (pos : Position) (references : List (DynamicReference δ)) :
    Option (ChatPart δ) :=
  match variableWithArgFind message with
  | none => none
  | some (_, name, arg) =>
    let fullLen := 1 + name.length + 1 + arg.length
    let range : OffsetRange := ⟨offset, offset + fullLen⟩
    let editorRange : EditorRange :=
      ⟨pos.lineNumber, pos.column, pos.lineNumber, pos.column + fullLen⟩
    match references.find? (fun r =>
        r.range.startLineNumber = pos.lineNumber ∧
        r.range.startColumn = pos.column) with
    | some refAtThisPosition =>
      some (.dynamicReference range editorRange name arg refAtThisPosition.data)
    | none => none

/-- The word-boundary gate of the scanner:
`previousChar.match(/\s/) || i === 0` where `previousChar` is
`message.charAt(i - 1)`. -/
def boundaryAt (fullMessage : List Char) (i : Nat) : Bool :=
  match i with
  | 0 => true
  | j+1 =>
    match fullMessage.get? j with
    | none => false
    | some c => isJsSpace c

/-- The accumulator update on a successful match (`if (newPart) { ... }` in
the scanner): when the match is not at offset 0, a synthetic text part
spanning from the previous part's end to the match offset is pushed first. -/
def pushNewPart {δ : Type} (fullMessage : List Char) (i lineNumber column : Nat)
    (parts : List (ChatPart δ)) : Option (ChatPart δ) → List (ChatPart δ)
  | none => parts
  | some newPart =>
    let withGap :=
      if i ≠ 0 then
        parts ++ [ChatPart.text ⟨lastPartEnd parts, i⟩
          ⟨lastPartEndLine parts, lastPartEndCol parts, lineNumber, column⟩
          (sliceChars fullMessage (lastPartEnd parts) i)]
      else parts
    withGap ++ [newPart]

/-- One iteration of the scanner's dispatch: at offset `i` (current character
`c`, remaining text `c :: rest`), apply the word-boundary gate and, behind it,
the leader-selected matcher.  Produces the optional new part, or the error
thrown by the slash-command branch. -/
def scanStep {δ : Type} (svc : ChatServices δ)
    (references : List (DynamicReference δ)) (fullMessage : List Char)
    (c : Char) (rest : List Char) (i lineNumber column : Nat)
    (parts : List (ChatPart δ)) : Except String (Option (ChatPart δ)) :=
  if boundaryAt fullMessage i then
    if c = chatFileVariableLeader then
      .ok (match tryToParseVariable svc (c :: rest) i ⟨lineNumber, column⟩ with
           | some p => some p
           | none =>
             tryToParseDynamicVariable (c :: rest) i ⟨lineNumber, column⟩
               references)
    else if c = chatAgentLeader then
      .ok (tryToParseAgent svc (c :: rest) fullMessage i ⟨lineNumber, column⟩
             parts)
    else if c = chatSubcommandLeader then
      tryToParseSlashCommand svc (c :: rest) fullMessage i ⟨lineNumber, column⟩
        parts
    else .ok none
  else .ok none

/-- The scanner loop of `parseChatRequest` (the `for` loop over character
offsets): processes the remaining characters `rest` starting at offset `i`
with the current 1-based line/column, returning the accumulated parts plus
the final line/column.  A thrown error from the slash-command branch aborts
the whole parse. -/
def scanLoop {δ : Type} (svc : ChatServices δ)
    (references : List (DynamicReference δ)) (fullMessage : List Char) :
    List Char → Nat → Nat → Nat → List (ChatPart δ) →
    Except String (List (ChatPart δ) × Nat × Nat)
  | [], _, lineNumber, column, parts => .ok (parts, lineNumber, column)
  | c :: rest, i, lineNumber, column, parts =>
    match scanStep svc references fullMessage c rest i lineNumber column parts with
    | .error e => .error e
    | .ok newPart =>
      let updated := pushNewPart fullMessage i lineNumber column parts newPart
      if c = '\n' then
        scanLoop svc references fullMessage rest (i+1) (lineNumber+1) 1 updated
      else
        scanLoop svc references fullMessage rest (i+1) lineNumber (column+1) updated

/-- The parse result: the ordered parts plus the original message text. -/
structure ParsedChatRequest (δ : Type) where
  parts : List (ChatPart δ)
  text : List Char
  deriving Repr, DecidableEq

/-- Embedding of `ChatRequestParser.parseChatRequest`: snapshot the dynamic
references (epoch 0, before anything else), run the scanner, then append a
trailing text part when the last part ends before the end of the message. -/
def parseChatRequest {δ : Type} (svc : ChatServices δ) (sessionId : Nat)
    (message : List Char) : Except String (ParsedChatRequest δ) :=
  let references := svc.getDynamicReferences sessionId 0
  match scanLoop svc references message message 0 1 1 [] with
  | .error e => .error e
  | .ok (parts, lineNumber, column) =>
    let finalParts :=
      if lastPartEnd parts < message.length then
        parts ++ [ChatPart.text ⟨lastPartEnd parts, message.length⟩
          ⟨lastPartEndLine parts, lastPartEndCol parts, lineNumber, column⟩
          (sliceChars message (lastPartEnd parts) message.length)]
      else parts
    .ok ⟨finalParts, message⟩


/-- The payload carried by a dynamic-reference part. -/
def ChatPart.dynData {δ : Type} : ChatPart δ → Option δ
  | .dynamicReference _ _ _ _ d => some d
  | _ => none

/-- Concatenation, in order, of the substrings of the message covered by each
part's offset range. -/
def coveredConcat {δ : Type} (msg : List Char) (parts : List (ChatPart δ)) :
    List Char :=
  parts.foldr
    (fun p acc => sliceChars msg p.range.start p.range.endExclusive ++ acc) []

/-- The parts' start offsets are strictly increasing. -/
def startsStrictMono {δ : Type} (parts : List (ChatPart δ)) : Prop :=
  List.Pairwise (fun p q => p.range.start < q.range.start) parts

/-- Shape of every slash-command or agent-subcommand part: its name is the
first `slashReg` match in the message's remainder from the part's start, the
part spans `1 + name.length` characters from that start, and whenever that
match sits at the very beginning of the remainder the covered substring is
literally `'/' :: name`. -/
def SlashShape {δ : Type} (msg : List Char) (p : ChatPart δ) : Prop :=
  ∃ j name, slashRegFind (msg.drop p.range.start) = some (j, name) ∧
    p.resolvedCommandName = some name ∧
    p.range.endExclusive = p.range.start + (1 + name.length) ∧
    (j = 0 →
      sliceChars msg p.range.start p.range.endExclusive = '/' :: name)

/-- Shape of every dynamic-reference part: the variable matcher declined at
its start offset, and the snapshotted reference list contains a record whose
declared start position equals the part's editor start position, whose payload
the part carries. -/
def DynShape {δ : Type} (svc : ChatServices δ)
    (refs : List (DynamicReference δ)) (msg : List Char) (p : ChatPart δ) :
    Prop :=
  tryToParseVariable svc (msg.drop p.range.start) p.range.start
      ⟨p.editorRange.startLineNumber, p.editorRange.startColumn⟩ = none ∧
  ∃ r ∈ refs, r.range.startLineNumber = p.editorRange.startLineNumber ∧
    r.range.startColumn = p.editorRange.startColumn ∧ p.dynData = some r.data

/-- Invariant maintained by the scanner over the accumulated parts: at most
one agent part; at most one slash-command-or-agent-subcommand part; an agent
subcommand only ever appears after an agent; every non-text part starts at a
word boundary; every slash-like part has `SlashShape`; every
dynamic-reference part has `DynShape`. -/
structure PartsInv {δ : Type} (svc : ChatServices δ)
    (refs : List (DynamicReference δ)) (msg : List Char)
    (parts : List (ChatPart δ)) : Prop where
  agentCount : parts.countP (fun p => p.isAgentPart) ≤ 1
  slashCount : parts.countP (fun p => p.isSlashLike) ≤ 1
  subImpliesAgent : (∃ p ∈ parts, p.isAgentSubcommandPart = true) →
    ∃ p ∈ parts, p.isAgentPart = true
  boundary : ∀ p ∈ parts, p.isTextPart = false →
    boundaryAt msg p.range.start = true
  slashShape : ∀ p ∈ parts, p.isSlashLike = true → SlashShape msg p
  dynShape : ∀ p ∈ parts, p.isDynamicReferencePart = true →
    DynShape svc refs msg p

/-- The invariant holds for the empty accumulator. -/
theorem partsInv_nil {δ : Type} (svc : ChatServices δ)
    (refs : List (DynamicReference δ)) (msg : List Char) :
    PartsInv svc refs msg ([] : List (ChatPart δ)) := by
  constructor <;> simp [List.countP_nil]

/-- A part yields an agent via `agentOf` exactly when it is an agent part. -/
theorem ChatPart.agentOf_eq_none_iff {δ : Type} (p : ChatPart δ) :
    p.agentOf = none ↔ p.isAgentPart = false := by
  cases p <;> simp [ChatPart.agentOf, ChatPart.isAgentPart]

/-- When `parts.findSome? agentOf` finds nothing, no accumulated part is an
agent part. -/
theorem no_agentPart_of_findSome?_none {δ : Type} {parts : List (ChatPart δ)}
    (h : parts.findSome? (fun p => p.agentOf) = none) :
    ∀ p ∈ parts, p.isAgentPart = false := by
  induction parts with
  | nil => simp
  | cons q qs ih =>
    rw [List.findSome?_cons] at h
    cases hq : q.agentOf with
    | some a => rw [hq] at h; cases h
    | none =>
      rw [hq] at h
      intro p hp
      rcases List.mem_cons.mp hp with hp | hp
      · subst hp; exact (ChatPart.agentOf_eq_none_iff p).mp hq
      · exact ih h p hp

/-- When `parts.findSome? agentOf` finds an agent, some accumulated part is an
agent part. -/
theorem exists_agentPart_of_findSome?_some {δ : Type} {parts : List (ChatPart δ)}
    {a : ChatAgent} (h : parts.findSome? (fun p => p.agentOf) = some a) :
    ∃ p ∈ parts, p.isAgentPart = true := by
  induction parts with
  | nil => simp at h
  | cons q qs ih =>
    rw [List.findSome?_cons] at h
    cases hq : q.agentOf with
    | some b =>
      refine ⟨q, List.mem_cons_self q qs, ?_⟩
      cases q <;> simp [ChatPart.agentOf] at hq <;> simp [ChatPart.isAgentPart]
    | none =>
      rw [hq] at h
      obtain ⟨p, hp, hpa⟩ := ih h
      exact ⟨p, List.mem_cons_of_mem q hp, hpa⟩

/-- A list none of whose elements satisfies `f` has `countP f` zero. -/
theorem countP_eq_zero_of_any_eq_false {α : Type} {f : α → Bool} {l : List α}
    (h : l.any f = false) : List.countP f l = 0 :=
  List.countP_eq_zero.mpr (List.any_eq_false.mp h)

/-- Characterization of a successful variable match. -/
theorem tryToParseVariable_some {δ : Type} {svc : ChatServices δ}
    {m : List Char} {off : Nat} {pos : Position} {p : ChatPart δ}
    (h : tryToParseVariable svc m off pos = some p) :
    ∃ n a, variableRegMatch m = some (n, a) ∧ svc.hasVariable n = true ∧
      p = .variablePart ⟨off, off + (1 + n.length + a.length)⟩
        ⟨pos.lineNumber, pos.column, pos.lineNumber,
         pos.column + (1 + n.length + a.length)⟩ n a := by
  unfold tryToParseVariable at h
  cases hm : variableRegMatch m with
  | none => rw [hm] at h; cases h
  | some na =>
    obtain ⟨n, a⟩ := na
    rw [hm] at h
    dsimp only at h
    split at h
    · exact ⟨n, a, rfl, by assumption, (Option.some.inj h).symm⟩
    · cases h

/-- Characterization of a successful agent match. -/
theorem tryToParseAgent_some {δ : Type} {svc : ChatServices δ}
    {m full : List Char} {off : Nat} {pos : Position}
    {parts : List (ChatPart δ)} {p : ChatPart δ}
    (h : tryToParseAgent svc m full off pos parts = some p) :
    ∃ name ag, agentRegMatch m = some name ∧ svc.getAgent name = some ag ∧
      parts.any (fun q => q.isAgentPart) = false ∧
      parts.any (fun q => q.isNonblankText || !q.isAgentPart) = false ∧
      p = .agentPart ⟨off, off + (1 + name.length)⟩
        ⟨pos.lineNumber, pos.column, pos.lineNumber,
         pos.column + (1 + name.length)⟩ ag := by
  unfold tryToParseAgent at h
  cases hm : agentRegMatch m with
  | none => rw [hm] at h; cases h
  | some name =>
    rw [hm] at h
    dsimp only at h
    cases hag : svc.getAgent name with
    | none => rw [hag] at h; cases h
    | some ag =>
      rw [hag] at h
      dsimp only at h
      split at h
      · cases h
      · split at h
        · cases h
        · split at h
          · cases h
          · refine ⟨name, ag, rfl, hag, ?_, ?_, (Option.some.inj h).symm⟩
            · simpa using (by assumption : ¬parts.any (fun q => q.isAgentPart) = true)
            · simpa using
                (by assumption :
                  ¬parts.any (fun q => q.isNonblankText || !q.isAgentPart) = true)

/-- Characterization of a successful slash-command match. -/
theorem tryToParseSlashCommand_ok_some {δ : Type} {svc : ChatServices δ}
    {m full : List Char} {off : Nat} {pos : Position}
    {parts : List (ChatPart δ)} {p : ChatPart δ}
    (h : tryToParseSlashCommand svc m full off pos parts = .ok (some p)) :
    ∃ j command, slashRegFind m = some (j, command) ∧
      parts.any (fun q => q.isSlashCommandPart) = false ∧
      ((∃ cmd, p = .slashCommand ⟨off, off + (1 + command.length)⟩
          ⟨pos.lineNumber, pos.column, pos.lineNumber,
           pos.column + (1 + command.length)⟩ cmd ∧
          cmd.command = command ∧
          parts.findSome? (fun q => q.agentOf) = none) ∨
       (∃ sub, p = .agentSubcommand ⟨off, off + (1 + command.length)⟩
          ⟨pos.lineNumber, pos.column, pos.lineNumber,
           pos.column + (1 + command.length)⟩ sub ∧
          sub.name = command ∧
          parts.any (fun q =>
            q.isNonblankText || (!q.isAgentPart && !q.isTextPart)) = false ∧
          ∃ a, parts.findSome? (fun q => q.agentOf) = some a)) := by
  unfold tryToParseSlashCommand at h
  cases hm : slashRegFind m with
  | none => rw [hm] at h; simp at h
  | some jc =>
    obtain ⟨j, command⟩ := jc
    rw [hm] at h
    dsimp only at h
    split at h
    · simp at h
    · refine ⟨j, command, rfl, by simpa using (by assumption :
        ¬parts.any (fun q => q.isSlashCommandPart) = true), ?_⟩
      split at h
      case _ usedAgent heq =>
        split at h
        · simp at h
        · split at h
          · simp at h
          · split at h
            · simp at h
            · split at h
              case _ subCommand hfind =>
                refine Or.inr ⟨subCommand, ?_, ?_, ?_, usedAgent, heq⟩
                · have := Except.ok.inj h
                  exact (Option.some.inj this).symm
                · have hpred := List.find?_some hfind
                  exact of_decide_eq_true hpred
                · simpa using (by assumption :
                    ¬parts.any (fun q =>
                      q.isNonblankText || (!q.isAgentPart && !q.isTextPart)) = true)
              case _ => simp at h
      case _ heq =>
        split at h
        case _ slashCommand hfind =>
          refine Or.inl ⟨slashCommand, ?_, ?_, heq⟩
          · have := Except.ok.inj h
            exact (Option.some.inj this).symm
          · have hpred := List.find?_some hfind
            exact of_decide_eq_true hpred
        case _ => simp at h

/-- Characterization of a successful dynamic-reference match. -/
theorem tryToParseDynamicVariable_some {δ : Type} {m : List Char} {off : Nat}
    {pos : Position} {refs : List (DynamicReference δ)} {p : ChatPart δ}
    (h : tryToParseDynamicVariable m off pos refs = some p) :
    ∃ j n a r, variableWithArgFind m = some (j, n, a) ∧ r ∈ refs ∧
      r.range.startLineNumber = pos.lineNumber ∧
      r.range.startColumn = pos.column ∧
      p = .dynamicReference ⟨off, off + (1 + n.length + 1 + a.length)⟩
        ⟨pos.lineNumber, pos.column, pos.lineNumber,
         pos.column + (1 + n.length + 1 + a.length)⟩ n a r.data := by
  unfold tryToParseDynamicVariable at h
  cases hm : variableWithArgFind m with
  | none => rw [hm] at h; cases h
  | some jna =>
    obtain ⟨j, n, a⟩ := jna
    rw [hm] at h
    dsimp only at h
    split at h
    case _ r hfind =>
      refine ⟨j, n, a, r, rfl, List.mem_of_find?_eq_some hfind, ?_, ?_,
        (Option.some.inj h).symm⟩
      · have hpred := List.find?_some hfind
        exact (of_decide_eq_true hpred).1
      · have hpred := List.find?_some hfind
        exact (of_decide_eq_true hpred).2
    case _ => cases h

/-- The agent matcher declines whenever some accumulated part is a non-blank
text part or is not an agent part. -/
theorem tryToParseAgent_declines {δ : Type} (svc : ChatServices δ)
    (m full : List Char) (off : Nat) (pos : Position)
    (parts : List (ChatPart δ)) (p : ChatPart δ) (hp : p ∈ parts)
    (hcond : p.isNonblankText = true ∨ p.isAgentPart = false) :
    tryToParseAgent svc m full off pos parts = none := by
  unfold tryToParseAgent
  cases hm : agentRegMatch m with
  | none => rfl
  | some name =>
    dsimp only
    cases hag : svc.getAgent name with
    | none => rfl
    | some ag =>
      dsimp only
      have hany : parts.any (fun q => q.isNonblankText || !q.isAgentPart) = true :=
        List.any_eq_true.mpr ⟨p, hp, by rcases hcond with hc | hc <;> simp [hc]⟩
      split
      · rfl
      · simp [hany]

/-- A prefix taken to its own length is itself. -/
theorem take_length_take {α : Type} (k : Nat) (l : List α) :
    l.take ((l.take k).length) = l.take k := by
  rw [List.length_take]
  rcases Nat.le_total k l.length with h | h
  · rw [Nat.min_eq_left h]
  · rw [Nat.min_eq_right h, List.take_of_length_le h,
      List.take_of_length_le (Nat.le_refl _)]

/-- When the unanchored slash pattern matches at index 0, the input starts
with the full matched text `'/' :: name`. -/
theorem slashRegFind_zero {s name : List Char}
    (h : slashRegFind s = some (0, name)) :
    s.take (1 + name.length) = '/' :: name := by
  cases s with
  | nil => simp [slashRegFind] at h
  | cons c rest =>
    unfold slashRegFind at h
    split at h
    case _ hc =>
      subst hc
      cases hn : slashNameAt rest with
      | some nm =>
        rw [hn] at h
        have hpair := Option.some.inj h
        have hname : nm = name := congrArg Prod.snd hpair
        subst hname
        unfold slashNameAt at hn
        cases hcut : backtrackCut '/' rest 1 (rest.takeWhile isNameChar).length with
        | none => rw [hcut] at hn; cases hn
        | some k =>
          rw [hcut] at hn
          have hk : rest.take k = nm := Option.some.inj hn
          subst hk
          rw [Nat.add_comm, List.take_succ_cons, take_length_take]
      | none =>
        rw [hn] at h
        cases hr : slashRegFind rest with
        | none => rw [hr] at h; cases h
        | some r =>
          rw [hr] at h
          have := congrArg Prod.fst (Option.some.inj h)
          simp at this
    case _ =>
      cases hr : slashRegFind rest with
      | none => rw [hr] at h; cases h
      | some r =>
        rw [hr] at h
        have := congrArg Prod.fst (Option.some.inj h)
        simp at this

/-- Appending a non-text part to the accumulator preserves the invariant,
given the part's kind-specific validity facts. -/
theorem partsInv_append_nontext {δ : Type} {svc : ChatServices δ}
    {refs : List (DynamicReference δ)} {msg : List Char}
    {parts : List (ChatPart δ)} {p : ChatPart δ}
    (hInv : PartsInv svc refs msg parts)
    (hb : boundaryAt msg p.range.start = true)
    (htext : p.isTextPart = false)
    (hagent : p.isAgentPart = true →
      List.countP (fun q => q.isAgentPart) parts = 0)
    (hslash : p.isSlashLike = true →
      List.countP (fun q => q.isSlashLike) parts = 0 ∧ SlashShape msg p)
    (hsub : p.isAgentSubcommandPart = true → ∃ q ∈ parts, q.isAgentPart = true)
    (hdyn : p.isDynamicReferencePart = true → DynShape svc refs msg p) :
    PartsInv svc refs msg (parts ++ [p]) := by
  obtain ⟨h1, h2, h3, h4, h5, h6⟩ := hInv
  refine ⟨?_, ?_, ?_, ?_, ?_, ?_⟩
  · rw [List.countP_append]
    cases hpa : p.isAgentPart with
    | true => simp [List.countP_cons, hpa, hagent hpa]
    | false => simpa [List.countP_cons, hpa] using h1
  · rw [List.countP_append]
    cases hps : p.isSlashLike with
    | true => simp [List.countP_cons, hps, (hslash hps).1]
    | false => simpa [List.countP_cons, hps] using h2
  · rintro ⟨q, hq, hqs⟩
    rcases List.mem_append.mp hq with hq | hq
    · obtain ⟨w, hw, hwa⟩ := h3 ⟨q, hq, hqs⟩
      exact ⟨w, List.mem_append_left _ hw, hwa⟩
    · rw [List.mem_singleton.mp hq] at hqs
      obtain ⟨w, hw, hwa⟩ := hsub hqs
      exact ⟨w, List.mem_append_left _ hw, hwa⟩
  · intro q hq hqt
    rcases List.mem_append.mp hq with hq | hq
    · exact h4 q hq hqt
    · rw [List.mem_singleton.mp hq]; exact hb
  · intro q hq hqs
    rcases List.mem_append.mp hq with hq | hq
    · exact h5 q hq hqs
    · rw [List.mem_singleton.mp hq] at hqs ⊢; exact (hslash hqs).2
  · intro q hq hqd
    rcases List.mem_append.mp hq with hq | hq
    · exact h6 q hq hqd
    · rw [List.mem_singleton.mp hq] at hqd ⊢; exact hdyn hqd

/-- Appending a synthetic text part preserves the invariant. -/
theorem partsInv_append_text {δ : Type} {svc : ChatServices δ}
    {refs : List (DynamicReference δ)} {msg : List Char}
    {parts : List (ChatPart δ)} (hInv : PartsInv svc refs msg parts)
    (r : OffsetRange) (er : EditorRange) (s : List Char) :
    PartsInv svc refs msg (parts ++ [ChatPart.text r er s]) := by
  obtain ⟨h1, h2, h3, h4, h5, h6⟩ := hInv
  refine ⟨?_, ?_, ?_, ?_, ?_, ?_⟩
  · simpa [List.countP_append, List.countP_cons, ChatPart.isAgentPart] using h1
  · simpa [List.countP_append, List.countP_cons, ChatPart.isSlashLike,
      ChatPart.isSlashCommandPart, ChatPart.isAgentSubcommandPart] using h2
  · rintro ⟨q, hq, hqs⟩
    rcases List.mem_append.mp hq with hq | hq
    · obtain ⟨w, hw, hwa⟩ := h3 ⟨q, hq, hqs⟩
      exact ⟨w, List.mem_append_left _ hw, hwa⟩
    · rw [List.mem_singleton.mp hq] at hqs
      simp [ChatPart.isAgentSubcommandPart] at hqs
  · intro q hq hqt
    rcases List.mem_append.mp hq with hq | hq
    · exact h4 q hq hqt
    · rw [List.mem_singleton.mp hq] at hqt
      simp [ChatPart.isTextPart] at hqt
  · intro q hq hqs
    rcases List.mem_append.mp hq with hq | hq
    · exact h5 q hq hqs
    · rw [List.mem_singleton.mp hq] at hqs
      simp [ChatPart.isSlashLike, ChatPart.isSlashCommandPart,
        ChatPart.isAgentSubcommandPart] at hqs
  · intro q hq hqd
    rcases List.mem_append.mp hq with hq | hq
    · exact h6 q hq hqd
    · rw [List.mem_singleton.mp hq] at hqd
      simp [ChatPart.isDynamicReferencePart] at hqd

/-- Pushing a newly matched (non-text) part, together with its synthetic gap
text part, preserves the invariant. -/
theorem partsInv_push {δ : Type} {svc : ChatServices δ}
    {refs : List (DynamicReference δ)} {msg : List Char} {i line col : Nat}
    {parts : List (ChatPart δ)} {p : ChatPart δ}
    (hInv : PartsInv svc refs msg parts)
    (hb : boundaryAt msg p.range.start = true)
    (htext : p.isTextPart = false)
    (hagent : p.isAgentPart = true →
      List.countP (fun q => q.isAgentPart) parts = 0)
    (hslash : p.isSlashLike = true →
      List.countP (fun q => q.isSlashLike) parts = 0 ∧ SlashShape msg p)
    (hsub : p.isAgentSubcommandPart = true → ∃ q ∈ parts, q.isAgentPart = true)
    (hdyn : p.isDynamicReferencePart = true → DynShape svc refs msg p) :
    PartsInv svc refs msg (pushNewPart msg i line col parts (some p)) := by
  unfold pushNewPart
  dsimp only
  split
  · -- a gap text part is inserted first
    apply partsInv_append_nontext (partsInv_append_text hInv _ _ _) hb htext
    · intro hpa
      have := hagent hpa
      simpa [List.countP_append, List.countP_cons, ChatPart.isAgentPart]
        using this
    · intro hps
      obtain ⟨hc, hs⟩ := hslash hps
      refine ⟨?_, hs⟩
      simpa [List.countP_append, List.countP_cons, ChatPart.isSlashLike,
        ChatPart.isSlashCommandPart, ChatPart.isAgentSubcommandPart] using hc
    · intro hps
      obtain ⟨q, hq, hqa⟩ := hsub hps
      exact ⟨q, List.mem_append_left _ hq, hqa⟩
    · exact hdyn
  · exact partsInv_append_nontext hInv hb htext hagent hslash hsub hdyn

/-- One scanner step preserves the invariant. -/
theorem scanStep_inv {δ : Type} {svc : ChatServices δ}
    {refs : List (DynamicReference δ)} {msg : List Char} {c : Char}
    {rest : List Char} {i line col : Nat} {parts : List (ChatPart δ)}
    {newPart : Option (ChatPart δ)}
    (hrest : msg.drop i = c :: rest)
    (hInv : PartsInv svc refs msg parts)
    (hstep : scanStep svc refs msg c rest i line col parts = .ok newPart) :
    PartsInv svc refs msg (pushNewPart msg i line col parts newPart) := by
  cases newPart with
  | none => exact hInv
  | some p =>
    unfold scanStep at hstep
    split at hstep
    case isTrue hb =>
      split at hstep
      case isTrue hc =>
        have hopt := Except.ok.inj hstep
        cases hv : tryToParseVariable svc (c :: rest) i ⟨line, col⟩ with
        | some q =>
          rw [hv] at hopt
          dsimp only at hopt
          rw [Option.some.inj hopt] at hv
          obtain ⟨n, a, hm, hhas, hpe⟩ := tryToParseVariable_some hv
          subst hpe
          refine partsInv_push hInv ?_ ?_ ?_ ?_ ?_ ?_
          · simpa [ChatPart.range] using hb
          · simp [ChatPart.isTextPart]
          · intro h; simp [ChatPart.isAgentPart] at h
          · intro h
            simp [ChatPart.isSlashLike, ChatPart.isSlashCommandPart,
              ChatPart.isAgentSubcommandPart] at h
          · intro h; simp [ChatPart.isAgentSubcommandPart] at h
          · intro h; simp [ChatPart.isDynamicReferencePart] at h
        | none =>
          rw [hv] at hopt
          dsimp only at hopt
          obtain ⟨j, n, a, r, hm, hrm, hline, hcol, hpe⟩ :=
            tryToParseDynamicVariable_some hopt
          subst hpe
          refine partsInv_push hInv ?_ ?_ ?_ ?_ ?_ ?_
          · simpa [ChatPart.range] using hb
          · simp [ChatPart.isTextPart]
          · intro h; simp [ChatPart.isAgentPart] at h
          · intro h
            simp [ChatPart.isSlashLike, ChatPart.isSlashCommandPart,
              ChatPart.isAgentSubcommandPart] at h
          · intro h; simp [ChatPart.isAgentSubcommandPart] at h
          · intro _
            refine ⟨?_, r, hrm, ?_, ?_, ?_⟩
            · simp only [ChatPart.range, ChatPart.editorRange]
              rw [hrest]
              exact hv
            · simpa [ChatPart.editorRange] using hline
            · simpa [ChatPart.editorRange] using hcol
            · simp [ChatPart.dynData]
      case isFalse =>
        split at hstep
        case isTrue hc =>
          have hopt := Except.ok.inj hstep
          obtain ⟨name, ag, hm, hag, hnoAgent, hcheck, hpe⟩ :=
            tryToParseAgent_some hopt
          subst hpe
          refine partsInv_push hInv ?_ ?_ ?_ ?_ ?_ ?_
          · simpa [ChatPart.range] using hb
          · simp [ChatPart.isTextPart]
          · intro _; exact countP_eq_zero_of_any_eq_false hnoAgent
          · intro h
            simp [ChatPart.isSlashLike, ChatPart.isSlashCommandPart,
              ChatPart.isAgentSubcommandPart] at h
          · intro h; simp [ChatPart.isAgentSubcommandPart] at h
          · intro h; simp [ChatPart.isDynamicReferencePart] at h
        case isFalse =>
          split at hstep
          case isTrue hc =>
            obtain ⟨j, command, hfind, hnoSlash, hdisj⟩ :=
              tryToParseSlashCommand_ok_some hstep
            rcases hdisj with ⟨cmd, hpe, hcmd, hAgNone⟩ |
              ⟨sub, hpe, hsubname, hallcheck, a, hAgSome⟩
            · subst hpe
              refine partsInv_push hInv ?_ ?_ ?_ ?_ ?_ ?_
              · simpa [ChatPart.range] using hb
              · simp [ChatPart.isTextPart]
              · intro h; simp [ChatPart.isAgentPart] at h
              · intro _
                constructor
                · refine List.countP_eq_zero.mpr (fun q hq hqs => ?_)
                  have hnox := List.any_eq_false.mp hnoSlash q hq
                  have hnoa := no_agentPart_of_findSome?_none hAgNone
                  rcases Bool.or_eq_true_iff.mp
                      (by simpa [ChatPart.isSlashLike] using hqs) with h | h
                  · exact hnox h
                  · obtain ⟨w, hw, hwa⟩ := hInv.subImpliesAgent ⟨q, hq, h⟩
                    rw [hnoa w hw] at hwa
                    cases hwa
                · refine ⟨j, command, ?_, ?_, ?_, ?_⟩
                  · simp only [ChatPart.range]
                    rw [hrest]
                    exact hfind
                  · simp [ChatPart.resolvedCommandName, hcmd]
                  · simp [ChatPart.range]
                  · intro hj0
                    subst hj0
                    simp only [ChatPart.range, sliceChars]
                    have hsub' : i + (1 + command.length) - i = 1 + command.length := by
                      omega
                    rw [hsub', hrest]
                    exact slashRegFind_zero hfind
              · intro h; simp [ChatPart.isAgentSubcommandPart] at h
              · intro h; simp [ChatPart.isDynamicReferencePart] at h
            · subst hpe
              refine partsInv_push hInv ?_ ?_ ?_ ?_ ?_ ?_
              · simpa [ChatPart.range] using hb
              · simp [ChatPart.isTextPart]
              · intro h; simp [ChatPart.isAgentPart] at h
              · intro _
                constructor
                · refine List.countP_eq_zero.mpr (fun q hq hqs => ?_)
                  have hq2 := List.any_eq_false.mp hallcheck q hq
                  cases q <;>
                    simp [ChatPart.isSlashLike, ChatPart.isSlashCommandPart,
                      ChatPart.isAgentSubcommandPart, ChatPart.isNonblankText,
                      ChatPart.isAgentPart, ChatPart.isTextPart] at hq2 hqs ⊢
                · refine ⟨j, command, ?_, ?_, ?_, ?_⟩
                  · simp only [ChatPart.range]
                    rw [hrest]
                    exact hfind
                  · simp [ChatPart.resolvedCommandName, hsubname]
                  · simp [ChatPart.range]
                  · intro hj0
                    subst hj0
                    simp only [ChatPart.range, sliceChars]
                    have hsub' : i + (1 + command.length) - i = 1 + command.length := by
                      omega
                    rw [hsub', hrest]
                    exact slashRegFind_zero hfind
              · intro _; exact exists_agentPart_of_findSome?_some hAgSome
              · intro h; simp [ChatPart.isDynamicReferencePart] at h
          case isFalse =>
            have := Except.ok.inj hstep
            cases this
    case isFalse =>
      have := Except.ok.inj hstep
      cases this

/-- The scanner loop preserves the invariant through to its output. -/
theorem scanLoop_inv {δ : Type} (svc : ChatServices δ)
    (refs : List (DynamicReference δ)) (msg : List Char) :
    ∀ (rest : List Char) (i line col : Nat) (parts : List (ChatPart δ))
      (out : List (ChatPart δ) × Nat × Nat),
      msg.drop i = rest →
      PartsInv svc refs msg parts →
      scanLoop svc refs msg rest i line col parts = .ok out →
      PartsInv svc refs msg out.1 := by
  intro rest
  induction rest with
  | nil =>
    intro i line col parts out _ hInv hrun
    simp only [scanLoop] at hrun
    rw [← Except.ok.inj hrun]
    exact hInv
  | cons c rest ih =>
    intro i line col parts out hrest hInv hrun
    simp only [scanLoop] at hrun
    cases hstep : scanStep svc refs msg c rest i line col parts with
    | error e => rw [hstep] at hrun; cases hrun
    | ok newPart =>
      rw [hstep] at hrun
      dsimp only at hrun
      have hInv' := scanStep_inv hrest hInv hstep
      have hrest' : msg.drop (i+1) = rest := by
        rw [← List.tail_drop, hrest, List.tail_cons]
      split at hrun
      · exact ih (i+1) (line+1) 1 _ out hrest' hInv' hrun
      · exact ih (i+1) line (col+1) _ out hrest' hInv' hrun

/-- A successful parse satisfies the invariant on its parts. -/
theorem parseChatRequest_inv {δ : Type} {svc : ChatServices δ} {sid : Nat}
    {msg : List Char} {r : ParsedChatRequest δ}
    (h : parseChatRequest svc sid msg = .ok r) :
    PartsInv svc (svc.getDynamicReferences sid 0) msg r.parts := by
  unfold parseChatRequest at h
  dsimp only at h
  cases hrun : scanLoop svc (svc.getDynamicReferences sid 0) msg msg 0 1 1 [] with
  | error e => rw [hrun] at h; cases h
  | ok out =>
    obtain ⟨parts, line, col⟩ := out
    rw [hrun] at h
    dsimp only at h
    have hParts : PartsInv svc (svc.getDynamicReferences sid 0) msg parts :=
      scanLoop_inv svc _ msg msg 0 1 1 [] (parts, line, col) rfl
        (partsInv_nil _ _ _) hrun
    rw [← Except.ok.inj h]
    dsimp only
    split
    · exact partsInv_append_text hParts _ _ _
    · exact hParts

/-- Line/column tracking of the scanner over a stretch of characters (`\n`
increments the line and resets the column to 1, anything else increments the
column). -/
def advancePos : Nat → Nat → List Char → Nat × Nat
  | line, col, [] => (line, col)
  | line, col, c :: rest =>
    if c = '\n' then advancePos (line+1) 1 rest else advancePos line (col+1) rest

/-- A step whose character is not a leader produces no part. -/
theorem scanStep_no_leader {δ : Type} (svc : ChatServices δ)
    (refs : List (DynamicReference δ)) (msg : List Char) {c : Char}
    (rest : List Char) (i line col : Nat) (parts : List (ChatPart δ))
    (h1 : c ≠ '#') (h2 : c ≠ '!') (h3 : c ≠ '/') :
    scanStep svc refs msg c rest i line col parts = .ok none := by
  unfold scanStep
  simp [chatFileVariableLeader, chatAgentLeader, chatSubcommandLeader, h1, h2, h3]

/-- Scanning a stretch containing no leader characters leaves the accumulator
unchanged and just advances the position. -/
theorem scanLoop_noLeader {δ : Type} (svc : ChatServices δ)
    (refs : List (DynamicReference δ)) (msg : List Char) :
    ∀ (rest : List Char) (i line col : Nat) (parts : List (ChatPart δ)),
      (∀ c ∈ rest, c ≠ '#' ∧ c ≠ '!' ∧ c ≠ '/') →
      scanLoop svc refs msg rest i line col parts =
        .ok (parts, advancePos line col rest) := by
  intro rest
  induction rest with
  | nil => intro i line col parts _; simp [scanLoop, advancePos]
  | cons c rest ih =>
    intro i line col parts hno
    obtain ⟨h1, h2, h3⟩ := hno c (List.mem_cons_self c rest)
    have hrest : ∀ x ∈ rest, x ≠ '#' ∧ x ≠ '!' ∧ x ≠ '/' :=
      fun x hx => hno x (List.mem_cons_of_mem c hx)
    simp only [scanLoop]
    rw [scanStep_no_leader svc refs msg rest i line col parts h1 h2 h3]
    dsimp only
    simp only [advancePos, pushNewPart]
    split
    · rw [ih (i+1) (line+1) 1 parts hrest]
    · rw [ih (i+1) line (col+1) parts hrest]

/-- Unfolding one scanner iteration whose step result is known (and whose
character is not a newline). -/
theorem scanLoop_cons {δ : Type} {svc : ChatServices δ}
    {refs : List (DynamicReference δ)} {msg : List Char} {c : Char}
    {rest : List Char} {i line col : Nat} {parts : List (ChatPart δ)}
    {newPart : Option (ChatPart δ)}
    (hstep : scanStep svc refs msg c rest i line col parts = .ok newPart)
    (hnl : c ≠ '\n') :
    scanLoop svc refs msg (c :: rest) i line col parts =
      scanLoop svc refs msg rest (i+1) line (col+1)
        (pushNewPart msg i line col parts newPart) := by
  simp only [scanLoop]
  rw [hstep]
  dsimp only
  rw [if_neg hnl]

/-- The scanner never consults `getDynamicReferences` (it only receives the
already-snapshotted list), so its result is unchanged when that field
differs. -/
theorem scanLoop_refs_field_irrel {δ : Type}
    (a : List Char → Option ChatAgent) (v : List Char → Bool)
    (cm : List SlashCmdInfo) (g g' : Nat → Nat → List (DynamicReference δ))
    (refs : List (DynamicReference δ)) (msg : List Char) :
    ∀ (rest : List Char) (i line col : Nat) (parts : List (ChatPart δ)),
      scanLoop ⟨a, v, cm, g⟩ refs msg rest i line col parts =
        scanLoop ⟨a, v, cm, g'⟩ refs msg rest i line col parts := by
  intro rest
  induction rest with
  | nil => intro i line col parts; rfl
  | cons c rest ih =>
    intro i line col parts
    have hstep : scanStep ⟨a, v, cm, g⟩ refs msg c rest i line col parts =
        scanStep ⟨a, v, cm, g'⟩ refs msg c rest i line col parts := rfl
    simp only [scanLoop]
    rw [hstep]
    cases hs : scanStep ⟨a, v, cm, g'⟩ refs msg c rest i line col parts with
    | error e => rfl
    | ok newPart =>
      dsimp only
      split
      · exact ih (i+1) (line+1) 1 _
      · exact ih (i+1) line (col+1) _

/-- C9: the dynamic-reference list for the session is fetched exactly once per
parse call, at the very start (epoch 0 of the modelled mutation clock, before
the one suspension point), and the parse result depends only on that snapshot:
two service environments that agree on the session's reference list at epoch 0
(but may disagree at every later epoch, i.e. after any mutation made once the
parse has started) produce identical parse results. -/
theorem spec_c9_snapshot_only {δ : Type} (svcA svcB : ChatServices δ)
    (sid : Nat) (msg : List Char)
    (hA : svcA.getAgent = svcB.getAgent)
    (hV : svcA.hasVariable = svcB.hasVariable)
    (hC : svcA.getCommands = svcB.getCommands)
    (hR : svcA.getDynamicReferences sid 0 = svcB.getDynamicReferences sid 0) :
    parseChatRequest svcA sid msg = parseChatRequest svcB sid msg := by
  obtain ⟨a, v, cm, g⟩ := svcA
  obtain ⟨a', v', cm', g'⟩ := svcB
  dsimp only at hA hV hC hR
  subst hA; subst hV; subst hC
  unfold parseChatRequest
  dsimp only
  rw [hR, scanLoop_refs_field_irrel a v cm g g' (g' sid 0) msg msg 0 1 1 []]

/-- Service environment for the C9 witness before any mutation: the epoch-0
list holds one reference anchored at (1,1). -/
def svcC9Before : ChatServices Nat :=
  ⟨fun _ => none, fun _ => false, [],
   fun _ t => if t = 0 then [⟨⟨1, 1, 1, 1⟩, 7⟩] else []⟩

/-- Service environment for the C9 witness in which the session's reference
list is mutated after the parse starts (every later epoch differs). -/
def svcC9After : ChatServices Nat :=
  ⟨fun _ => none, fun _ => false, [],
   fun _ t => if t = 0 then [⟨⟨1, 1, 1, 1⟩, 7⟩] else [⟨⟨9, 9, 9, 9⟩, 3⟩]⟩

/-- Witness for C9 at a concrete input whose reference list is mutated at
every epoch after the snapshot. -/
theorem spec_c9_witness :
    parseChatRequest svcC9Before 0 "#file:a.b".data =
      parseChatRequest svcC9After 0 "#file:a.b".data :=
  spec_c9_snapshot_only svcC9Before svcC9After 0 "#file:a.b".data rfl rfl rfl rfl

/-- C2: every successful parse contains at most one agent segment, and at most
one segment that is a slash command or an agent subcommand (counting the two
kinds together). -/
theorem spec_c2_at_most_one {δ : Type} (svc : ChatServices δ) (sid : Nat)
    (msg : List Char) (r : ParsedChatRequest δ)
    (h : parseChatRequest svc sid msg = .ok r) :
    List.countP (fun p => p.isAgentPart) r.parts ≤ 1 ∧
    List.countP (fun p => p.isSlashLike) r.parts ≤ 1 :=
  ⟨(parseChatRequest_inv h).agentCount, (parseChatRequest_inv h).slashCount⟩

/-- Agent used by the C2 witness: provides one sub-command named `sub`. -/
def agC2 : ChatAgent := ⟨2, .ok [⟨"sub".data⟩]⟩

/-- Service environment for the C2 witness. -/
def svcC2 : ChatServices Nat :=
  ⟨fun n => if n = "a".data then some agC2 else none, fun _ => false, [],
   fun _ _ => []⟩

/-- Expected parse result of `"!a /sub arg"` under `svcC2`: it contains one
agent part and one agent-subcommand part. -/
def reqC2 : ParsedChatRequest Nat :=
  ⟨[.agentPart ⟨0, 2⟩ ⟨1, 1, 1, 3⟩ agC2,
    .text ⟨2, 3⟩ ⟨1, 3, 1, 4⟩ " ".data,
    .agentSubcommand ⟨3, 7⟩ ⟨1, 4, 1, 8⟩ ⟨"sub".data⟩,
    .text ⟨7, 11⟩ ⟨1, 8, 1, 12⟩ " arg".data],
   "!a /sub arg".data⟩

/-- Witness for C2 at a concrete parse producing both an agent part and an
agent-subcommand part. -/
theorem spec_c2_witness :
    parseChatRequest svcC2 0 "!a /sub arg".data = .ok reqC2 ∧
    (List.countP (fun p => p.isAgentPart) reqC2.parts ≤ 1 ∧
     List.countP (fun p => p.isSlashLike) reqC2.parts ≤ 1) :=
  ⟨rfl, spec_c2_at_most_one svcC2 0 "!a /sub arg".data reqC2 rfl⟩

/-- C8: a leader character that is not the first character of the message and
is not immediately preceded by a whitespace character never starts a non-text
segment: every non-text segment of a successful parse starts at a word
boundary (offset 0, or an offset whose preceding character is JS whitespace);
and, for example, "x!agent" parses to a single text segment covering the
entire string under every service environment, in particular even when
"agent" is a registered agent. -/
theorem spec_c8_boundary_gate {δ : Type} :
    (∀ (svc : ChatServices δ) (sid : Nat) (msg : List Char)
       (r : ParsedChatRequest δ), parseChatRequest svc sid msg = .ok r →
       ∀ p ∈ r.parts, p.isTextPart = false →
         boundaryAt msg p.range.start = true) ∧
    (∀ (svc : ChatServices δ) (sid : Nat),
       parseChatRequest svc sid "x!agent".data =
         .ok ⟨[.text ⟨0, 7⟩ ⟨1, 1, 1, 8⟩ "x!agent".data], "x!agent".data⟩) :=
  ⟨fun _ _ _ _ h => (parseChatRequest_inv h).boundary,
   fun _ _ => rfl⟩

/-- Service environment for the C8 witness: every name resolves to a
registered agent. -/
def svcC8 : ChatServices Nat :=
  ⟨fun _ => some ⟨9, .ok []⟩, fun _ => false, [], fun _ _ => []⟩

/-- Expected parse result of `"x!agent"`: one text segment. -/
def reqC8 : ParsedChatRequest Nat :=
  ⟨[.text ⟨0, 7⟩ ⟨1, 1, 1, 8⟩ "x!agent".data], "x!agent".data⟩

/-- Witness for C8 with the agent registry resolving every name (so only the
boundary gate prevents a segment). -/
theorem spec_c8_witness :
    parseChatRequest svcC8 0 "x!agent".data = .ok reqC8 ∧
    (∀ p ∈ reqC8.parts, p.isTextPart = false →
       boundaryAt "x!agent".data p.range.start = true) :=
  ⟨spec_c8_boundary_gate.2 svcC8 0,
   spec_c8_boundary_gate.1 svcC8 0 "x!agent".data reqC8
     (spec_c8_boundary_gate.2 svcC8 0)⟩

/-- Service environment of the C1 failing input: variable `v` is registered
and one dynamic reference is anchored at line 1, column 1. -/
def svcC1 : ChatServices Nat :=
  ⟨fun _ => none, fun n => n = "v".data, [], fun _ _ => [⟨⟨1, 1, 1, 1⟩, 0⟩]⟩

/-- The C1 failing input message. -/
def msgC1 : List Char := "# #v:1".data

/-- The parse result the code actually produces on the C1 failing input: the
dynamic-reference segment [0,4) (from the unanchored `variableWithArgReg`
match found two characters into the remainder) overlaps the variable segment
[2,6), with an inverted synthetic text segment [4,2) between them. -/
def reqC1 : ParsedChatRequest Nat :=
  ⟨[.dynamicReference ⟨0, 4⟩ ⟨1, 1, 1, 5⟩ "v".data "1".data 0,
    .text ⟨4, 2⟩ ⟨1, 5, 1, 3⟩ [],
    .variablePart ⟨2, 6⟩ ⟨1, 3, 1, 7⟩ "v".data (':' :: "1".data)],
   msgC1⟩

/-- C1 (code bug): the claimed coverage invariant fails.  On `"# #v:1"` with
variable `v` registered and a dynamic reference anchored at (1,1), the parse
succeeds but its segments are not strictly increasing in start offset (starts
are 0, 4, 2), the first and third segments overlap, and concatenating the
covered substrings yields `"# #v#v:1"`, not the original message. -/
theorem spec_c1_coverage_violated :
    parseChatRequest svcC1 0 msgC1 = .ok reqC1 ∧
    coveredConcat msgC1 reqC1.parts ≠ msgC1 ∧
    ¬ startsStrictMono reqC1.parts := by
  refine ⟨rfl, by decide, ?_⟩
  intro hmono
  rcases hmono with _ | ⟨_, hmono⟩
  rcases hmono with _ | ⟨h1, _⟩
  have h42 := h1 _ (List.mem_cons_self _ _)
  have : (4 : Nat) < 2 := by simpa [ChatPart.range] using h42
  omega

/-- Service environment of the C3 counterexample: a standalone slash command
named `help` is registered and no agent exists. -/
def svcC3 : ChatServices Nat :=
  ⟨fun _ => none, fun _ => false, [⟨"help".data⟩], fun _ _ => []⟩

/-- The C3 counterexample message: its first slash cannot match (it is
followed by a space), so the unanchored `slashReg` finds `/help` two
characters later, yet the emitted segment is anchored at offset 0. -/
def msgC3 : List Char := "/ /help".data

/-- The parse result of the C3 counterexample: a slash-command segment [0,5)
whose covered text is `"/ /he"`. -/
def reqC3 : ParsedChatRequest Nat :=
  ⟨[.slashCommand ⟨0, 5⟩ ⟨1, 1, 1, 6⟩ ⟨"help".data⟩,
    .text ⟨5, 7⟩ ⟨1, 6, 1, 8⟩ "lp".data],
   msgC3⟩

/-- C3 counterexample: the parse of `"/ /help"` contains a slash-command
segment resolving the command `help` whose covered substring is `"/ /he"`,
not `'/'` followed by the command name. -/
theorem spec_c3_counterexample :
    parseChatRequest svcC3 0 msgC3 = .ok reqC3 ∧
    (∃ p ∈ reqC3.parts, p.isSlashLike = true ∧
       p.resolvedCommandName = some "help".data ∧
       sliceChars msgC3 p.range.start p.range.endExclusive ≠
         '/' :: "help".data) :=
  ⟨rfl, by decide⟩

/-- C3 (amended): whenever a successful parse contains a slash-command or
agent-subcommand segment, the segment starts at the offset where the scanner
saw the `/`, the resolved command's name is produced by the first `slashReg`
match in the remainder of the message from that offset (the pattern is
searched, not anchored), the segment's length is one plus the length of that
name, and the covered substring is exactly the leader `/` immediately
followed by the name whenever that first match sits at the very start of the
remainder. -/
theorem spec_c3_amended {δ : Type} (svc : ChatServices δ) (sid : Nat)
    (msg : List Char) (r : ParsedChatRequest δ)
    (h : parseChatRequest svc sid msg = .ok r) :
    ∀ p ∈ r.parts, p.isSlashLike = true → SlashShape msg p :=
  (parseChatRequest_inv h).slashShape

/-- Expected parse result of `"/help"` under `svcC3`: a single slash-command
segment anchored at 0 and covering exactly `/help`. -/
def reqC3W : ParsedChatRequest Nat :=
  ⟨[.slashCommand ⟨0, 5⟩ ⟨1, 1, 1, 6⟩ ⟨"help".data⟩], "/help".data⟩

/-- Witness for the amended C3 on a parse containing a slash-command
segment. -/
theorem spec_c3_witness :
    parseChatRequest svcC3 0 "/help".data = .ok reqC3W ∧
    (∀ p ∈ reqC3W.parts, p.isSlashLike = true → SlashShape "/help".data p) :=
  ⟨rfl, spec_c3_amended svcC3 0 "/help".data reqC3W rfl⟩

/-- The agent of the C4 failing input: its asynchronous sub-command
enumeration throws. -/
def agC4 : ChatAgent := ⟨0, .error "boom"⟩

/-- Service environment of the C4 failing input. -/
def svcC4 : ChatServices Nat :=
  ⟨fun n => if n = "a".data then some agC4 else none, fun _ => false, [],
   fun _ _ => []⟩

/-- C4 (code bug): when the external sub-command enumeration fails, the error
propagates out of `parseChatRequest` (the source awaits
`provideSlashCommands` with no try/catch): parsing `"!a /s"` with agent `a`
registered rejects with the thrown error instead of completing with the slash
text degraded to plain content. -/
theorem spec_c4_error_propagates :
    parseChatRequest svcC4 0 "!a /s".data = .error "boom" := rfl

/-- Service environment of the C6 counterexample: no variables are registered
and one dynamic reference is anchored at line 1, column 1. -/
def svcC6 : ChatServices Nat :=
  ⟨fun _ => none, fun _ => false, [], fun _ _ => [⟨⟨1, 1, 1, 1⟩, 0⟩]⟩

/-- The C6 counterexample message. -/
def msgC6 : List Char := "# #a:b".data

/-- The parse result of the C6 counterexample: the dynamic-reference segment
emitted at offset 0 (whose unanchored match overreaches to [0,4)) swallows
the declined `#` candidate at offset 2, which therefore is not covered by any
text segment. -/
def reqC6 : ParsedChatRequest Nat :=
  ⟨[.dynamicReference ⟨0, 4⟩ ⟨1, 1, 1, 5⟩ "a".data "b".data 0,
    .text ⟨4, 6⟩ ⟨1, 5, 1, 7⟩ (':' :: "b".data)],
   msgC6⟩

/-- C6 counterexample: in the parse of `"# #a:b"`, the `#` candidate at
offset 2 sits at a word boundary, both the variable matcher and the
dynamic-reference matcher decline there (no record is anchored at (1,3)),
yet its character is not covered by any text segment — it lies inside the
earlier dynamic-reference segment [0,4). -/
theorem spec_c6_counterexample :
    parseChatRequest svcC6 0 msgC6 = .ok reqC6 ∧
    boundaryAt msgC6 2 = true ∧
    tryToParseVariable svcC6 (msgC6.drop 2) 2 ⟨1, 3⟩ = none ∧
    tryToParseDynamicVariable (msgC6.drop 2) 2 ⟨1, 3⟩
      (svcC6.getDynamicReferences 0 0) = none ∧
    ¬ (∃ p ∈ reqC6.parts, p.isTextPart = true ∧
        p.range.start ≤ 2 ∧ 2 < p.range.endExclusive) :=
  ⟨rfl, rfl, rfl, rfl, by decide⟩

/-- C6 (amended): a dynamic-reference segment is emitted at a `#` candidate
only when the variable matcher has declined there and the pre-snapshotted
reference list contains a record whose declared start position equals the
candidate's editor position exactly, and the segment carries that record's
payload; when no such record exists, no dynamic-reference segment is emitted
at that candidate (but its text can be swallowed by an earlier segment whose
unanchored match overreached, instead of being covered by a text segment). -/
theorem spec_c6_amended {δ : Type} (svc : ChatServices δ) (sid : Nat)
    (msg : List Char) (r : ParsedChatRequest δ)
    (h : parseChatRequest svc sid msg = .ok r) :
    ∀ p ∈ r.parts, p.isDynamicReferencePart = true →
      DynShape svc (svc.getDynamicReferences sid 0) msg p :=
  (parseChatRequest_inv h).dynShape

/-- Service environment of the C6 witness: one dynamic reference anchored at
(1,1) carrying payload 7. -/
def svcC6W : ChatServices Nat :=
  ⟨fun _ => none, fun _ => false, [], fun _ _ => [⟨⟨1, 1, 1, 1⟩, 7⟩]⟩

/-- Expected parse result of `"#file:foo.ts"` under `svcC6W`: one
dynamic-reference segment carrying payload 7. -/
def reqC6W : ParsedChatRequest Nat :=
  ⟨[.dynamicReference ⟨0, 12⟩ ⟨1, 1, 1, 13⟩ "file".data "foo.ts".data 7],
   "#file:foo.ts".data⟩

/-- Witness for the amended C6 on a parse containing a dynamic-reference
segment. -/
theorem spec_c6_witness :
    parseChatRequest svcC6W 0 "#file:foo.ts".data = .ok reqC6W ∧
    (∀ p ∈ reqC6W.parts, p.isDynamicReferencePart = true →
       DynShape svcC6W (svcC6W.getDynamicReferences 0 0) "#file:foo.ts".data p) :=
  ⟨rfl, spec_c6_amended svcC6W 0 "#file:foo.ts".data reqC6W rfl⟩

/-- C10: the agent-mention pattern accepts an empty name.  On the message
`"!"` the pattern matches with the empty string as the captured name, the
parse outcome is determined by the agent lookup applied to that empty name
(the service is queried with the empty string), and whenever the lookup
returns no agent the `!` character ends up covered by a text segment. -/
theorem spec_c10_empty_agent_name {δ : Type} (svc : ChatServices δ)
    (sid : Nat) :
    agentRegMatch "!".data = some [] ∧
    (∀ ag, svc.getAgent [] = some ag →
       parseChatRequest svc sid "!".data =
         .ok ⟨[.agentPart ⟨0, 1⟩ ⟨1, 1, 1, 2⟩ ag], "!".data⟩) ∧
    (svc.getAgent [] = none →
       parseChatRequest svc sid "!".data =
         .ok ⟨[.text ⟨0, 1⟩ ⟨1, 1, 1, 2⟩ "!".data], "!".data⟩) := by
  refine ⟨rfl, ?_, ?_⟩
  · intro ag hag
    have htry : tryToParseAgent svc ('!' :: ([] : List Char))
        ('!' :: ([] : List Char)) 0 ⟨1, 1⟩ ([] : List (ChatPart δ)) =
        some (.agentPart ⟨0, 1⟩ ⟨1, 1, 1, 2⟩ ag) := by
      unfold tryToParseAgent
      rw [show agentRegMatch ('!' :: ([] : List Char)) = some [] from rfl]
      dsimp only
      rw [hag]
      rfl
    have hstep : scanStep svc (svc.getDynamicReferences sid 0)
        ('!' :: ([] : List Char)) '!' [] 0 1 1 ([] : List (ChatPart δ)) =
        .ok (some (.agentPart ⟨0, 1⟩ ⟨1, 1, 1, 2⟩ ag)) := by
      have h0 : scanStep svc (svc.getDynamicReferences sid 0)
          ('!' :: ([] : List Char)) '!' [] 0 1 1 ([] : List (ChatPart δ)) =
          .ok (tryToParseAgent svc ('!' :: ([] : List Char))
            ('!' :: ([] : List Char)) 0 ⟨1, 1⟩ []) := rfl
      rw [h0, htry]
    unfold parseChatRequest
    dsimp only
    rw [scanLoop_cons hstep (by decide)]
    rfl
  · intro hag
    have htry : tryToParseAgent svc ('!' :: ([] : List Char))
        ('!' :: ([] : List Char)) 0 ⟨1, 1⟩ ([] : List (ChatPart δ)) = none := by
      unfold tryToParseAgent
      rw [show agentRegMatch ('!' :: ([] : List Char)) = some [] from rfl]
      dsimp only
      rw [hag]
    have hstep : scanStep svc (svc.getDynamicReferences sid 0)
        ('!' :: ([] : List Char)) '!' [] 0 1 1 ([] : List (ChatPart δ)) =
        .ok none := by
      have h0 : scanStep svc (svc.getDynamicReferences sid 0)
          ('!' :: ([] : List Char)) '!' [] 0 1 1 ([] : List (ChatPart δ)) =
          .ok (tryToParseAgent svc ('!' :: ([] : List Char))
            ('!' :: ([] : List Char)) 0 ⟨1, 1⟩ []) := rfl
      rw [h0, htry]
    unfold parseChatRequest
    dsimp only
    rw [scanLoop_cons hstep (by decide)]
    rfl

/-- The captured argument carried by a variable part. -/
def ChatPart.variableArg {δ : Type} : ChatPart δ → Option (List Char)
  | .variablePart _ _ _ a => some a
  | _ => none

/-- Service environment of the C5 input: variable `myvar` is registered. -/
def svcC5 : ChatServices Nat :=
  ⟨fun _ => none, fun n => n = "myvar".data, [], fun _ _ => []⟩

/-- The parse result of `"#myvar:3"` under `svcC5`. -/
def reqC5 : ParsedChatRequest Nat :=
  ⟨[.variablePart ⟨0, 8⟩ ⟨1, 1, 1, 9⟩ "myvar".data (':' :: "3".data)],
   "#myvar:3".data⟩

/-- C5 counterexample: the captured argument stored in the variable segment
parsed from `"#myvar:3"` is the string `":3"` (the optional group captures
the colon together with the digits), which is not the bare numeral `"3"`. -/
theorem spec_c5_counterexample :
    parseChatRequest svcC5 0 "#myvar:3".data = .ok reqC5 ∧
    (∀ p ∈ reqC5.parts, p.variableArg = some (':' :: "3".data)) ∧
    (':' :: "3".data) ≠ "3".data :=
  ⟨rfl, by decide, by decide⟩

/-- C5 (amended): for `"#myvar:3"` with `myvar` registered, the parse result
is a single variable segment covering the whole string whose captured
argument is the string `":3"` — the colon plus digits whose numeric value is
3 — and the captured argument is the empty string when the `:<digits>` suffix
is absent (message `"#myvar"`). -/
theorem spec_c5_amended {δ : Type} (svc : ChatServices δ) (sid : Nat)
    (hv : svc.hasVariable "myvar".data = true) :
    parseChatRequest svc sid "#myvar:3".data =
      .ok ⟨[.variablePart ⟨0, 8⟩ ⟨1, 1, 1, 9⟩ "myvar".data (':' :: "3".data)],
           "#myvar:3".data⟩ ∧
    parseChatRequest svc sid "#myvar".data =
      .ok ⟨[.variablePart ⟨0, 6⟩ ⟨1, 1, 1, 7⟩ "myvar".data []], "#myvar".data⟩ ∧
    (':' :: "3".data).tail = Nat.toDigits 10 3 := by
  have htryA : tryToParseVariable svc ['#', 'm', 'y', 'v', 'a', 'r', ':', '3'] 0 ⟨1, 1⟩ =
      some (ChatPart.variablePart ⟨0, 8⟩ ⟨1, 1, 1, 9⟩ ['m', 'y', 'v', 'a', 'r'] [':', '3']) := by
    unfold tryToParseVariable
    rw [show variableRegMatch ['#', 'm', 'y', 'v', 'a', 'r', ':', '3'] = some (['m', 'y', 'v', 'a', 'r'], [':', '3']) from rfl]
    dsimp only
    rw [if_pos (show svc.hasVariable ['m', 'y', 'v', 'a', 'r'] = true from hv)]
    rfl
  have htryB : tryToParseVariable svc ['#', 'm', 'y', 'v', 'a', 'r'] 0 ⟨1, 1⟩ =
      some (ChatPart.variablePart ⟨0, 6⟩ ⟨1, 1, 1, 7⟩ ['m', 'y', 'v', 'a', 'r'] []) := by
    unfold tryToParseVariable
    rw [show variableRegMatch ['#', 'm', 'y', 'v', 'a', 'r'] = some (['m', 'y', 'v', 'a', 'r'], []) from rfl]
    dsimp only
    rw [if_pos (show svc.hasVariable ['m', 'y', 'v', 'a', 'r'] = true from hv)]
    rfl
  have hstepA : scanStep svc (svc.getDynamicReferences sid 0) ['#', 'm', 'y', 'v', 'a', 'r', ':', '3'] '#'
      ['m', 'y', 'v', 'a', 'r', ':', '3'] 0 1 1 ([] : List (ChatPart δ)) =
      .ok (some (ChatPart.variablePart ⟨0, 8⟩ ⟨1, 1, 1, 9⟩ ['m', 'y', 'v', 'a', 'r'] [':', '3'])) := by
    have h0 : scanStep svc (svc.getDynamicReferences sid 0) ['#', 'm', 'y', 'v', 'a', 'r', ':', '3'] '#'
        ['m', 'y', 'v', 'a', 'r', ':', '3'] 0 1 1 ([] : List (ChatPart δ)) =
        .ok (match tryToParseVariable svc ['#', 'm', 'y', 'v', 'a', 'r', ':', '3'] 0 ⟨1, 1⟩ with
             | some p => some p
             | none => tryToParseDynamicVariable ['#', 'm', 'y', 'v', 'a', 'r', ':', '3'] 0 ⟨1, 1⟩
                 (svc.getDynamicReferences sid 0)) := rfl
    rw [h0, htryA]
  have hstepB : scanStep svc (svc.getDynamicReferences sid 0) ['#', 'm', 'y', 'v', 'a', 'r'] '#'
      ['m', 'y', 'v', 'a', 'r'] 0 1 1 ([] : List (ChatPart δ)) =
      .ok (some (ChatPart.variablePart ⟨0, 6⟩ ⟨1, 1, 1, 7⟩ ['m', 'y', 'v', 'a', 'r'] [])) := by
    have h0 : scanStep svc (svc.getDynamicReferences sid 0) ['#', 'm', 'y', 'v', 'a', 'r'] '#'
        ['m', 'y', 'v', 'a', 'r'] 0 1 1 ([] : List (ChatPart δ)) =
        .ok (match tryToParseVariable svc ['#', 'm', 'y', 'v', 'a', 'r'] 0 ⟨1, 1⟩ with
             | some p => some p
             | none => tryToParseDynamicVariable ['#', 'm', 'y', 'v', 'a', 'r'] 0 ⟨1, 1⟩
                 (svc.getDynamicReferences sid 0)) := rfl
    rw [h0, htryB]
  refine ⟨?_, ?_, by decide⟩
  · unfold parseChatRequest
    dsimp only
    rw [scanLoop_cons hstepA (by decide),
      scanLoop_noLeader svc (svc.getDynamicReferences sid 0) ['#', 'm', 'y', 'v', 'a', 'r', ':', '3']
        ['m', 'y', 'v', 'a', 'r', ':', '3'] 1 1 2 _ (by decide)]
    rfl
  · unfold parseChatRequest
    dsimp only
    rw [scanLoop_cons hstepB (by decide),
      scanLoop_noLeader svc (svc.getDynamicReferences sid 0) ['#', 'm', 'y', 'v', 'a', 'r']
        ['m', 'y', 'v', 'a', 'r'] 1 1 2 _ (by decide)]
    rfl

/-- Witness for the amended C5 at a concrete service environment. -/
theorem spec_c5_witness :
    parseChatRequest svcC5 0 "#myvar:3".data =
      .ok ⟨[.variablePart ⟨0, 8⟩ ⟨1, 1, 1, 9⟩ "myvar".data (':' :: "3".data)],
           "#myvar:3".data⟩ ∧
    parseChatRequest svcC5 0 "#myvar".data =
      .ok ⟨[.variablePart ⟨0, 6⟩ ⟨1, 1, 1, 7⟩ "myvar".data []], "#myvar".data⟩ ∧
    (':' :: "3".data).tail = Nat.toDigits 10 3 :=
  spec_c5_amended svcC5 0 (by decide)

/-- C7: the agent matcher declines whenever any already-accumulated segment is
a non-blank text segment or is not an agent segment (so an agent mention is
recognized only as the first non-whitespace content); and for
`"!agentX do the thing"` with `agentX` registered and nothing preceding it,
the result is an agent segment for `!agentX` followed by a text segment for
`" do the thing"`. -/
theorem spec_c7_agent_first {δ : Type} :
    (∀ (svc : ChatServices δ) (m full : List Char) (off : Nat)
       (pos : Position) (parts : List (ChatPart δ)) (p : ChatPart δ),
       p ∈ parts → (p.isNonblankText = true ∨ p.isAgentPart = false) →
       tryToParseAgent svc m full off pos parts = none) ∧
    (∀ (svc : ChatServices δ) (sid : Nat) (ag : ChatAgent),
       svc.getAgent "agentX".data = some ag →
       parseChatRequest svc sid "!agentX do the thing".data =
         .ok ⟨[.agentPart ⟨0, 7⟩ ⟨1, 1, 1, 8⟩ ag,
               .text ⟨7, 20⟩ ⟨1, 8, 1, 21⟩ " do the thing".data],
              "!agentX do the thing".data⟩) := by
  constructor
  · intro svc m full off pos parts p hp hcond
    exact tryToParseAgent_declines svc m full off pos parts p hp hcond
  · intro svc sid ag hag
    have htry : tryToParseAgent svc ['!', 'a', 'g', 'e', 'n', 't', 'X', ' ', 'd', 'o', ' ', 't', 'h', 'e', ' ', 't', 'h', 'i', 'n', 'g'] ['!', 'a', 'g', 'e', 'n', 't', 'X', ' ', 'd', 'o', ' ', 't', 'h', 'e', ' ', 't', 'h', 'i', 'n', 'g'] 0 ⟨1, 1⟩
        ([] : List (ChatPart δ)) =
        some (ChatPart.agentPart ⟨0, 7⟩ ⟨1, 1, 1, 8⟩ ag) := by
      unfold tryToParseAgent
      rw [show agentRegMatch ['!', 'a', 'g', 'e', 'n', 't', 'X', ' ', 'd', 'o', ' ', 't', 'h', 'e', ' ', 't', 'h', 'i', 'n', 'g'] = some ['a', 'g', 'e', 'n', 't', 'X'] from rfl]
      dsimp only
      rw [show svc.getAgent ['a', 'g', 'e', 'n', 't', 'X'] = some ag from hag]
      rfl
    have hstep : scanStep svc (svc.getDynamicReferences sid 0) ['!', 'a', 'g', 'e', 'n', 't', 'X', ' ', 'd', 'o', ' ', 't', 'h', 'e', ' ', 't', 'h', 'i', 'n', 'g'] '!'
        ['a', 'g', 'e', 'n', 't', 'X', ' ', 'd', 'o', ' ', 't', 'h', 'e', ' ', 't', 'h', 'i', 'n', 'g'] 0 1 1 ([] : List (ChatPart δ)) =
        .ok (some (ChatPart.agentPart ⟨0, 7⟩ ⟨1, 1, 1, 8⟩ ag)) := by
      have h0 : scanStep svc (svc.getDynamicReferences sid 0) ['!', 'a', 'g', 'e', 'n', 't', 'X', ' ', 'd', 'o', ' ', 't', 'h', 'e', ' ', 't', 'h', 'i', 'n', 'g'] '!'
          ['a', 'g', 'e', 'n', 't', 'X', ' ', 'd', 'o', ' ', 't', 'h', 'e', ' ', 't', 'h', 'i', 'n', 'g'] 0 1 1 ([] : List (ChatPart δ)) =
          .ok (tryToParseAgent svc ['!', 'a', 'g', 'e', 'n', 't', 'X', ' ', 'd', 'o', ' ', 't', 'h', 'e', ' ', 't', 'h', 'i', 'n', 'g'] ['!', 'a', 'g', 'e', 'n', 't', 'X', ' ', 'd', 'o', ' ', 't', 'h', 'e', ' ', 't', 'h', 'i', 'n', 'g'] 0 ⟨1, 1⟩ []) := rfl
      rw [h0, htry]
    unfold parseChatRequest
    dsimp only
    rw [scanLoop_cons hstep (by decide),
      scanLoop_noLeader svc (svc.getDynamicReferences sid 0) ['!', 'a', 'g', 'e', 'n', 't', 'X', ' ', 'd', 'o', ' ', 't', 'h', 'e', ' ', 't', 'h', 'i', 'n', 'g']
        ['a', 'g', 'e', 'n', 't', 'X', ' ', 'd', 'o', ' ', 't', 'h', 'e', ' ', 't', 'h', 'i', 'n', 'g'] 1 1 2 _ (by decide)]
    rfl

/-- Agent of the C7 witness. -/
def agC7 : ChatAgent := ⟨1, .ok []⟩

/-- Service environment of the C7 witness: `agentX` is registered. -/
def svcC7 : ChatServices Nat :=
  ⟨fun n => if n = "agentX".data then some agC7 else none, fun _ => false, [],
   fun _ _ => []⟩

/-- Witness for C7: the decline conjunct applied at an accumulator holding a
non-blank text part, and the concrete parse of `"!agentX do the thing"`. -/
theorem spec_c7_witness :
    tryToParseAgent svcC7 "!x".data "a !x".data 2 ⟨1, 3⟩
      [.text ⟨0, 2⟩ ⟨1, 1, 1, 3⟩ "a ".data] = none ∧
    parseChatRequest svcC7 0 "!agentX do the thing".data =
      .ok ⟨[.agentPart ⟨0, 7⟩ ⟨1, 1, 1, 8⟩ agC7,
            .text ⟨7, 20⟩ ⟨1, 8, 1, 21⟩ " do the thing".data],
           "!agentX do the thing".data⟩ :=
  ⟨spec_c7_agent_first.1 svcC7 "!x".data "a !x".data 2 ⟨1, 3⟩
     [.text ⟨0, 2⟩ ⟨1, 1, 1, 3⟩ "a ".data] _ (List.mem_singleton.mpr rfl)
     (Or.inl (by decide)),
   spec_c7_agent_first.2 svcC7 0 agC7 rfl⟩

/-- Service environment of the C10 witness: no agents are registered. -/
def svcC10 : ChatServices Nat :=
  ⟨fun _ => none, fun _ => false, [], fun _ _ => []⟩

/-- Witness for C10: under `svcC10` the lookup at the empty name fails and
the lone `!` becomes a text segment. -/
theorem spec_c10_witness :
    agentRegMatch "!".data = some [] ∧
    parseChatRequest svcC10 0 "!".data =
      .ok ⟨[.text ⟨0, 1⟩ ⟨1, 1, 1, 2⟩ "!".data], "!".data⟩ :=
  ⟨(spec_c10_empty_agent_name svcC10 0).1,
   (spec_c10_empty_agent_name svcC10 0).2.2 rfl⟩
